import Mathlib

/-!
Shallow embedding of `src/build_calendars.py` (DFW Influx Calendars build
script).  Python datetimes are modelled by an explicit record of calendar
components plus an optional timezone name; fallible Python code (statements
that can raise) is modelled in `Except String`.  All datetimes produced by
the embedded pipeline live in the single configured zone, so Python's
aware-datetime comparison coincides with lexicographic comparison of the
wall-clock components (cross-zone `astimezone` conversion never arises at
the embedded call sites and is elided).
-/

/-- The module-level timezone name `TZNAME = "America/Chicago"`. -/
def TZNAME : String := "America/Chicago"

/-- Model of a Python `datetime.datetime`: calendar components plus the
timezone attached to it (`none` models a naive datetime, `some z` an aware
datetime in zone `z`). -/
structure PyDateTime where
  year : Nat
  month : Nat
  day : Nat
  hour : Nat
  minute : Nat
  second : Nat
  tzinfo : Option String
deriving DecidableEq, Repr

/-- Lexicographic (wall-clock) strict order on datetime components.  For two
datetimes in the same zone this is exactly Python's `<` on datetimes. -/
def dtLtP (a b : PyDateTime) : Prop :=
  a.year < b.year ∨ (a.year = b.year ∧
    (a.month < b.month ∨ (a.month = b.month ∧
      (a.day < b.day ∨ (a.day = b.day ∧
        (a.hour < b.hour ∨ (a.hour = b.hour ∧
          (a.minute < b.minute ∨ (a.minute = b.minute ∧
            a.second < b.second)))))))))

instance instDecDtLtP (a b : PyDateTime) : Decidable (dtLtP a b) := by
  unfold dtLtP; exact inferInstance

/-- Python's comparison of datetimes: comparing a naive and an aware datetime
raises `TypeError`; otherwise both are compared as instants (within the one
configured zone this is the wall-clock order `dtLtP`). -/
def pyLt (a b : PyDateTime) : Except String Bool :=
  match a.tzinfo, b.tzinfo with
  | none, none => .ok (decide (dtLtP a b))
  | some _, some _ => .ok (decide (dtLtP a b))
  | _, _ => .error "TypeError: cannot compare offset-naive and offset-aware datetimes"

/-- Value of a decimal digit character, `none` for a non-digit. -/
def digitVal (c : Char) : Option Nat :=
  if '0' ≤ c ∧ c ≤ '9' then some (c.toNat - 48) else none

/-- Two-digit decimal number from two characters. -/
def digit2 (a b : Char) : Option Nat := do
  let x ← digitVal a
  let y ← digitVal b
  pure (x * 10 + y)

/-- Four-digit decimal number from four characters. -/
def digit4 (a b c d : Char) : Option Nat := do
  let x ← digit2 a b
  let y ← digit2 c d
  pure (x * 100 + y)

/-- Gregorian leap-year test. -/
def isLeap (y : Nat) : Bool :=
  (y % 4 == 0 && y % 100 != 0) || y % 400 == 0

/-- Number of days in a month. -/
def daysInMonth (y m : Nat) : Nat :=
  if m = 2 then (if isLeap y then 29 else 28)
  else if m = 4 ∨ m = 6 ∨ m = 9 ∨ m = 11 then 30
  else 31

/-- Build a naive datetime after validating the component ranges exactly as
`datetime.datetime` does (year 1..9999, month 1..12, day within month,
hour ≤ 23, minute ≤ 59, second ≤ 59); out-of-range components raise. -/
def mkDT (y mo d h mi se : Nat) : Except String PyDateTime :=
  if 1 ≤ y ∧ y ≤ 9999 ∧ 1 ≤ mo ∧ mo ≤ 12 ∧ 1 ≤ d ∧ d ≤ daysInMonth y mo ∧
     h ≤ 23 ∧ mi ≤ 59 ∧ se ≤ 59 then
    .ok ⟨y, mo, d, h, mi, se, none⟩
  else .error "ValueError: component out of range"

/-- Model of `datetime.fromisoformat` restricted to the two string shapes the
pipeline documents and feeds it (a bare `YYYY-MM-DD` date and an ISO
date-time `YYYY-MM-DDTHH:MM` optionally with `:SS`); every other string
raises `ValueError`.  The result is always naive, matching these shapes. -/
def fromisoformat (s : String) : Except String PyDateTime :=
  match s.data with
  | [y1, y2, y3, y4, '-', a1, a2, '-', b1, b2] =>
    match digit4 y1 y2 y3 y4, digit2 a1 a2, digit2 b1 b2 with
    | some y, some mo, some d => mkDT y mo d 0 0 0
    | _, _, _ => .error "ValueError: Invalid isoformat string"
  | [y1, y2, y3, y4, '-', a1, a2, '-', b1, b2, 'T', h1, h2, ':', m1, m2] =>
    match digit4 y1 y2 y3 y4, digit2 a1 a2, digit2 b1 b2,
          digit2 h1 h2, digit2 m1 m2 with
    | some y, some mo, some d, some h, some mi => mkDT y mo d h mi 0
    | _, _, _, _, _ => .error "ValueError: Invalid isoformat string"
  | [y1, y2, y3, y4, '-', a1, a2, '-', b1, b2, 'T', h1, h2, ':', m1, m2, ':', s1, s2] =>
    match digit4 y1 y2 y3 y4, digit2 a1 a2, digit2 b1 b2,
          digit2 h1 h2, digit2 m1 m2, digit2 s1 s2 with
    | some y, some mo, some d, some h, some mi, some se => mkDT y mo d h mi se
    | _, _, _, _, _, _ => .error "ValueError: Invalid isoformat string"
  | _ => .error "ValueError: Invalid isoformat string"

/-- Model of `to_local`: a naive datetime gets the configured zone attached
(`dt.replace(tzinfo=TZ)`); an aware one is converted to the configured zone
(`dt.astimezone(TZ)`).  All aware datetimes reaching the embedded call sites
are already in the configured zone, so the conversion is the identity. -/
def to_local (dt : PyDateTime) : PyDateTime :=
  match dt.tzinfo with
  | none => { dt with tzinfo := some TZNAME }
  | some _ => { dt with tzinfo := some TZNAME }

/-- Model of `parse_dt`: accept `YYYY-MM-DD` or ISO `YYYY-MM-DDTHH:MM`.  A string
containing `T` is parsed as a full date-time; otherwise it is parsed and its
time components are zeroed (`d.replace(hour=0, minute=0, second=0)`).  A
string `fromisoformat` rejects makes `parse_dt` raise (there is no
catch here). -/
def parse_dt (s : String) : Except String PyDateTime :=
  if s.data.contains 'T' then
    (fromisoformat s).map to_local
  else
    (fromisoformat s).map
      (fun d => to_local { d with hour := 0, minute := 0, second := 0 })

/-- Previous calendar day of a `(year, month, day)` triple. -/
def prevDay : Nat × Nat × Nat → Nat × Nat × Nat
  | (y, m, d) =>
    if 1 < d then (y, m, d - 1)
    else if 1 < m then (y, m - 1, daysInMonth y (m - 1))
    else (y - 1, 12, 31)

/-- Next calendar day of a `(year, month, day)` triple. -/
def nextDay : Nat × Nat × Nat → Nat × Nat × Nat
  | (y, m, d) =>
    if d < daysInMonth y m then (y, m, d + 1)
    else if m < 12 then (y, m + 1, 1)
    else (y + 1, 1, 1)

/-- Wall-clock subtraction of `n` days (`dt - timedelta(days=n)`), keeping
the time of day and the timezone. -/
def subDays (n : Nat) (dt : PyDateTime) : PyDateTime :=
  let (y, m, d) := Nat.iterate prevDay n (dt.year, dt.month, dt.day)
  { dt with year := y, month := m, day := d }

/-- Wall-clock addition of two hours (`start + timedelta(hours=2)`), rolling
over midnight when needed, keeping the timezone. -/
def addHours2 (st : PyDateTime) : PyDateTime :=
  if st.hour + 2 ≤ 23 then { st with hour := st.hour + 2 }
  else
    let (y, m, d) := nextDay (st.year, st.month, st.day)
    { st with year := y, month := m, day := d, hour := st.hour + 2 - 24 }

/-- Model of `WINDOW_START = datetime.now(TZ) - timedelta(days=7)`, as a function of
the run's `now` (taken once at module import). -/
def WINDOW_START (now : PyDateTime) : PyDateTime := subDays 7 now

/-- Model of `WINDOW_END = datetime(2026, 6, 30, 23, 59, tzinfo=TZ)`. -/
def WINDOW_END : PyDateTime := ⟨2026, 6, 30, 23, 59, 0, some TZNAME⟩

/-- The `start` value stored in a candidate record: a typed datetime, a raw
string awaiting `parse_dt`, or no value (a missing/`None` start). -/
inductive StartVal where
  | dt (d : PyDateTime)
  | str (s : String)
  | noneV
deriving DecidableEq, Repr

/-- A candidate record as the extractors and the curated config produce it:
the dict `{summary, start, end?, location?, description?}`.  `none` models a
missing key or a `None` value. -/
structure Item where
  summary : String
  start : StartVal
  endv : Option PyDateTime
  location : Option String
  description : Option String
deriving DecidableEq, Repr

/-- A VEVENT as `add_event` assembles it (summary, dtstart, dtend, optional
location and description, uid). -/
structure ICalEvent where
  summary : String
  dtstart : PyDateTime
  dtend : PyDateTime
  location : Option String
  description : Option String
  uid : String
deriving DecidableEq, Repr

/-- Modelled from the spec and CPython's documented hash randomization: the
built-in `hash` of a `str` is salted by the per-run `PYTHONHASHSEED` (spec
section 9 demands a hash that is NOT runtime-seed-dependent).  The exact
siphash is abstracted to a simple salted fold that preserves the
seed-dependence; `seed` is the per-run salt. -/
def pyStrHash (seed : Nat) (s : String) : Nat :=
  s.data.foldl (fun a c => (a * 1000003 + c.toNat + 1) % 2 ^ 61) ((seed + 1) % 2 ^ 61)

/-- Salted hash of a tuple of element hashes, modelling `hash((...))` on a
tuple: combines the already-salted element hashes. -/
def pyTupleHash (seed : Nat) (xs : List Nat) : Nat :=
  xs.foldl (fun a h => (a * 1000003 + h + 1) % 2 ^ 61) ((seed * 2 + 1) % 2 ^ 61)

/-- Salted hash standing for `hash` of a datetime's `isoformat()` string
(the serialization to the ISO string is elided; the hash input is determined
by the same datetime value, and the salt-dependence is preserved). -/
def dtHash (seed : Nat) (d : PyDateTime) : Nat :=
  pyTupleHash seed
    [d.year, d.month, d.day, d.hour, d.minute, d.second,
     if d.tzinfo.isSome then 1 else 0]

/-- The uid from `add_event`:
`f"{hash((summary, start.isoformat(), end.isoformat() if end else '', location or ''))}@dfw"`,
as a function of the per-run hash salt `seed`. -/
def uidOf (seed : Nat) (summary : String) (st : PyDateTime)
    (endv : Option PyDateTime) (location : Option String) : String :=
  toString (pyTupleHash seed
    [pyStrHash seed summary, dtHash seed st,
     (match endv with | some e => dtHash seed e | none => pyStrHash seed ""),
     pyStrHash seed (location.getD "")]) ++ "@dfw"

/-- Python truthiness for the optional text fields: `if location:` stores the
field only when it is a non-empty string. -/
def truthyStr (o : Option String) : Option String :=
  match o with
  | some s => if s = "" then none else some s
  | none => none

/-- Model of `add_event(cal, summary, start, end, location, description)`: skip a
`None` start; filter to the window (`start < WINDOW_START or
start > WINDOW_END` drops the record); otherwise append the assembled event.
A start that is still a raw string makes the window comparison raise
`TypeError`, and comparing a naive start against the aware `WINDOW_START`
also raises; both abort (`Except.error`).  `now` is the run's clock (the
module-level `WINDOW_START` anchor) and `seed` the per-run hash salt. -/
def add_event (now : PyDateTime) (seed : Nat) (cal : List ICalEvent)
    (summary : String) (start : StartVal) (endv : Option PyDateTime)
    (location : Option String) (description : Option String) :
    Except String (List ICalEvent) :=
  match start with
  | .noneV => .ok cal
  | .str _ => .error "TypeError: cannot compare str and datetime"
  | .dt st =>
    match pyLt st (WINDOW_START now) with
    | .error e => .error e
    | .ok true => .ok cal
    | .ok false =>
      match pyLt WINDOW_END st with
      | .error e => .error e
      | .ok true => .ok cal
      | .ok false =>
        .ok (cal ++ [⟨summary, st,
          (match endv with | some e => e | none => addHours2 st),
          truthyStr location, truthyStr description,
          uidOf seed summary st endv location⟩])

/-- A source descriptor together with the outcome of invoking its kind's
extractor on the fetched payload (network transfer and markup parsing are
the outside world: an extractor call that raises is `.error`, one that
returns a candidate list is `.ok`).  `stype` and `category` are the
`src.get("type")` / `src.get("category")` config values, `none` when the
key is absent. -/
structure Source where
  stype : Option String
  category : Option String
  url : String
  result : Except String (List Item)
deriving Repr

/-- The six per-category accumulation lists of `by_cat`. -/
structure CatLists where
  sports : List Item
  music : List Item
  conferences : List Item
  arts : List Item
  festivals : List Item
  specials : List Item
deriving DecidableEq, Repr

/-- The empty `by_cat` mapping (all six lists empty). -/
def emptyCatLists : CatLists := ⟨[], [], [], [], [], []⟩

/-- The fixed category keys of `by_cat`. -/
def sixCats : List String :=
  ["sports", "music", "conferences", "arts", "festivals", "specials"]

/-- Decidable membership in the six fixed categories. -/
def sixContains (c : String) : Bool := sixCats.contains c

/-- Model of `by_cat.get(cat, []).append(it)`: append into the matching category
list; an unrecognized or missing category appends into a fresh temporary
list that is immediately discarded, leaving `by_cat` unchanged. -/
def appendCat (b : CatLists) (cat : Option String) (it : Item) : CatLists :=
  match cat with
  | none => b
  | some c =>
    if c = "sports" then { b with sports := b.sports ++ [it] }
    else if c = "music" then { b with music := b.music ++ [it] }
    else if c = "conferences" then { b with conferences := b.conferences ++ [it] }
    else if c = "arts" then { b with arts := b.arts ++ [it] }
    else if c = "festivals" then { b with festivals := b.festivals ++ [it] }
    else if c = "specials" then { b with specials := b.specials ++ [it] }
    else b

/-- The recognized source kinds of the router's dispatch chain. -/
def recognizedB (t : String) : Bool :=
  t == "ics" || t == "aac" || t == "att_stadium" || t == "livenation" ||
  t == "axs" || t == "selector"

/-- Per-item key normalization in `fetch_from_sources` (and for curated
events in `main`): a string `start` goes through `parse_dt` — whose failure
propagates, there is no per-item catch — every other shape passes through
unchanged. -/
def normalizeItem (it : Item) : Except String Item :=
  match it.start with
  | .str s => (parse_dt s).map (fun d => { it with start := .dt d })
  | _ => .ok it

/-- Normalize each item in order and append it to its source's category
list; the first `parse_dt` failure aborts. -/
def appendAll (b : CatLists) (cat : Option String) :
    List Item → Except String CatLists
  | [] => .ok b
  | it :: its =>
    match normalizeItem it with
    | .error e => .error e
    | .ok it2 => appendAll (appendCat b cat it2) cat its

/-- One router step: a recognized kind uses its extractor outcome (a raised
extractor exception is caught at the per-source boundary and logged as a
warning, the source then contributes zero records); an unrecognized or
missing kind silently yields zero records and no warning. -/
def routeSource (ws : List String) (src : Source) : List Item × List String :=
  match src.stype with
  | some t =>
    if recognizedB t then
      match src.result with
      | .ok l => (l, ws)
      | .error e => ([], ws ++ ["[warn] source failed: " ++ src.url ++ " -> " ++ e])
    else ([], ws)
  | none => ([], ws)

/-- The source loop of `fetch_from_sources`, threading `by_cat` and the
emitted warning lines. -/
def fetchAux (b : CatLists) (ws : List String) :
    List Source → Except String (CatLists × List String)
  | [] => .ok (b, ws)
  | src :: rest =>
    let (items, ws2) := routeSource ws src
    match appendAll b src.category items with
    | .error e => .error e
    | .ok b2 => fetchAux b2 ws2 rest

/-- Model of `fetch_from_sources(cfg)`: route every configured source, normalize the
string starts, and accumulate per category; returns `by_cat` together with
the warning lines printed along the way. -/
def fetchFromSources (sources : List Source) :
    Except String (CatLists × List String) :=
  fetchAux emptyCatLists [] sources

/-- The dedup key `(it["summary"], it["start"].isoformat(), it.get("location",""))`.
`isoformat` is injective on datetimes within the one configured zone, so the
key carries the datetime value itself; a missing location keys as `""`. -/
def Key : Type := String × PyDateTime × String
deriving instance DecidableEq for Key

/-- Key of one record; a record whose `start` is not a datetime raises
(`None`/`str` have no `isoformat`). -/
def keyOf (it : Item) : Except String Key :=
  match it.start with
  | .dt d => .ok (it.summary, d, it.location.getD "")
  | _ => .error "AttributeError: object has no attribute isoformat"

/-- Whether a record's key evaluates to exactly `k`. -/
def hasKey (k : Key) (it : Item) : Bool :=
  match keyOf it with
  | .ok k2 => decide (k2 = k)
  | .error _ => false

/-- The `seen`-set loop of `dedupe`, with the set of already-seen keys made
explicit. -/
def dedupeAux (seen : List Key) : List Item → Except String (List Item)
  | [] => .ok []
  | it :: rest =>
    match keyOf it with
    | .error e => .error e
    | .ok k =>
      if k ∈ seen then dedupeAux seen rest
      else
        match dedupeAux (k :: seen) rest with
        | .error e => .error e
        | .ok out => .ok (it :: out)

/-- Model of `dedupe(items)`: keep the first record for each
`(summary, start-instant, location)` key, in list order. -/
def dedupe (items : List Item) : Except String (List Item) :=
  dedupeAux [] items

/-- The curated part of the configuration: `cfg["events"][cat]` for each of
the six categories. -/
structure CuratedCfg where
  sports : List Item
  music : List Item
  conferences : List Item
  arts : List Item
  festivals : List Item
  specials : List Item
deriving Repr

/-- The loaded configuration: the source descriptors and the curated
events. -/
structure Config where
  sources : List Source
  events : CuratedCfg
deriving Repr

/-- The seven output calendars `main` writes (six categories plus the
master). -/
structure Cals where
  sports : List ICalEvent
  music : List ICalEvent
  conferences : List ICalEvent
  arts : List ICalEvent
  festivals : List ICalEvent
  specials : List ICalEvent
  master : List ICalEvent
deriving DecidableEq, Repr

/-- The per-category loop body of `main` step 3: each deduplicated record is
added both to its category calendar and to the master calendar. -/
def addBucket (now : PyDateTime) (seed : Nat) :
    List Item → List ICalEvent × List ICalEvent →
    Except String (List ICalEvent × List ICalEvent)
  | [], s => .ok s
  | it :: its, (cal, master) =>
    match add_event now seed cal it.summary it.start it.endv it.location it.description with
    | .error e => .error e
    | .ok cal2 =>
      match add_event now seed master it.summary it.start it.endv it.location it.description with
      | .error e => .error e
      | .ok master2 => addBucket now seed its (cal2, master2)

/-- Normalize one category's curated events in order (`main` step 2: a
string `start` goes through `parse_dt`, whose failure propagates). -/
def normalizeList : List Item → Except String (List Item)
  | [] => .ok []
  | it :: its =>
    match normalizeItem it with
    | .error e => .error e
    | .ok it2 =>
      match normalizeList its with
      | .error e => .error e
      | .ok rest => .ok (it2 :: rest)

/-- Step 2 of `main` over all six categories in `cats` order: append each
category's normalized curated events after its scraped records. -/
def addCurated (scraped : CatLists) (ev : CuratedCfg) : Except String CatLists :=
  match normalizeList ev.sports with
  | .error e => .error e
  | .ok cs =>
    match normalizeList ev.music with
    | .error e => .error e
    | .ok cm =>
      match normalizeList ev.conferences with
      | .error e => .error e
      | .ok cc =>
        match normalizeList ev.arts with
        | .error e => .error e
        | .ok ca =>
          match normalizeList ev.festivals with
          | .error e => .error e
          | .ok cf =>
            match normalizeList ev.specials with
            | .error e => .error e
            | .ok cp =>
              .ok ⟨scraped.sports ++ cs, scraped.music ++ cm,
                   scraped.conferences ++ cc, scraped.arts ++ ca,
                   scraped.festivals ++ cf, scraped.specials ++ cp⟩

/-- Step 3 of `main` for one category: dedupe the accumulated candidate list,
then add each survivor to the category calendar and to the master. -/
def buildCat (now : PyDateTime) (seed : Nat) (items : List Item)
    (master : List ICalEvent) :
    Except String (List ICalEvent × List ICalEvent) :=
  match dedupe items with
  | .error e => .error e
  | .ok bucket => addBucket now seed bucket ([], master)

/-- Model of `main()`: load the configuration (its `Except` input models
`yaml.safe_load(...read_text())`, whose exceptions nothing catches), fetch
and normalize the sources, append the curated events per category, dedupe
each category, and assemble the six category calendars plus the master. -/
def mainModel (now : PyDateTime) (seed : Nat)
    (cfgResult : Except String Config) : Except String Cals :=
  match cfgResult with
  | .error e => .error e
  | .ok cfg =>
    match fetchFromSources cfg.sources with
    | .error e => .error e
    | .ok (scraped, _warns) =>
      match addCurated scraped cfg.events with
      | .error e => .error e
      | .ok full =>
        match buildCat now seed full.sports [] with
        | .error e => .error e
        | .ok (calSports, m1) =>
          match buildCat now seed full.music m1 with
          | .error e => .error e
          | .ok (calMusic, m2) =>
            match buildCat now seed full.conferences m2 with
            | .error e => .error e
            | .ok (calConf, m3) =>
              match buildCat now seed full.arts m3 with
              | .error e => .error e
              | .ok (calArts, m4) =>
                match buildCat now seed full.festivals m4 with
                | .error e => .error e
                | .ok (calFest, m5) =>
                  match buildCat now seed full.specials m5 with
                  | .error e => .error e
                  | .ok (calSpec, m6) =>
                    .ok ⟨calSports, calMusic, calConf, calArts, calFest, calSpec, m6⟩

/-- Wall-clock day subtraction never touches the timezone field. -/
theorem subDays_tzinfo (n : Nat) (dt : PyDateTime) :
    (subDays n dt).tzinfo = dt.tzinfo := by
  unfold subDays
  rcases Nat.iterate prevDay n (dt.year, dt.month, dt.day) with ⟨y, m, d⟩
  rfl

/-- The wall-clock order is irreflexive. -/
theorem dtLtP_irrefl (a : PyDateTime) : ¬ dtLtP a a := by
  unfold dtLtP; omega

/-- Adding two hours never moves a datetime backwards in wall-clock
order. -/
theorem not_dtLtP_addHours2 (st : PyDateTime) : ¬ dtLtP (addHours2 st) st := by
  by_cases h1 : st.hour + 2 ≤ 23
  · simp only [addHours2, if_pos h1, dtLtP]; omega
  · by_cases h2 : st.day < daysInMonth st.year st.month
    · simp only [addHours2, if_neg h1, nextDay, if_pos h2, dtLtP]; omega
    · by_cases h3 : st.month < 12
      · simp only [addHours2, if_neg h1, nextDay, if_neg h2, if_pos h3, dtLtP]; omega
      · simp only [addHours2, if_neg h1, nextDay, if_neg h2, if_neg h3, dtLtP]; omega

/-- Comparing two aware datetimes never raises and yields the wall-clock
order. -/
theorem pyLt_aware (a b : PyDateTime) (za zb : String)
    (ha : a.tzinfo = some za) (hb : b.tzinfo = some zb) :
    pyLt a b = .ok (decide (dtLtP a b)) := by
  unfold pyLt; rw [ha, hb]

/-- Every datetime `mkDT` accepts is naive. -/
theorem mkDT_naive {y mo d h mi se : Nat} {dt : PyDateTime}
    (hk : mkDT y mo d h mi se = .ok dt) : dt.tzinfo = none := by
  unfold mkDT at hk
  split at hk
  · cases hk; rfl
  · exact Except.noConfusion hk

/-- Every datetime `fromisoformat` returns is naive. -/
theorem fromisoformat_naive {s : String} {d : PyDateTime}
    (h : fromisoformat s = .ok d) : d.tzinfo = none := by
  unfold fromisoformat at h
  split at h <;>
    first
    | exact Except.noConfusion h
    | (split at h <;> first | exact mkDT_naive h | exact Except.noConfusion h)

/-- With an aware start inside the window, `add_event` appends exactly the
assembled event (dtend defaults to start + 2 hours when no end was
supplied; an explicit end is stored unchanged). -/
theorem add_event_in_window
    (now st : PyDateTime) (seed : Nat) (cal : List ICalEvent) (s : String)
    (endv : Option PyDateTime) (loc desc : Option String)
    (hnow : now.tzinfo = some TZNAME) (hst : st.tzinfo = some TZNAME)
    (hlo : ¬ dtLtP st (WINDOW_START now)) (hhi : ¬ dtLtP WINDOW_END st) :
    add_event now seed cal s (.dt st) endv loc desc =
      .ok (cal ++ [⟨s, st,
        (match endv with | some e => e | none => addHours2 st),
        truthyStr loc, truthyStr desc, uidOf seed s st endv loc⟩]) := by
  have hws : (WINDOW_START now).tzinfo = some TZNAME := by
    rw [WINDOW_START, subDays_tzinfo, hnow]
  simp only [add_event]
  rw [pyLt_aware st (WINDOW_START now) _ _ hst hws,
      pyLt_aware WINDOW_END st _ _ rfl hst,
      decide_eq_false hlo, decide_eq_false hhi]

/-- The filter in `add_event` drops a start strictly before the window start. -/
theorem add_event_skips_early
    (now st : PyDateTime) (seed : Nat) (cal : List ICalEvent) (s : String)
    (endv : Option PyDateTime) (loc desc : Option String)
    (hnow : now.tzinfo = some TZNAME) (hst : st.tzinfo = some TZNAME)
    (hlo : dtLtP st (WINDOW_START now)) :
    add_event now seed cal s (.dt st) endv loc desc = .ok cal := by
  have hws : (WINDOW_START now).tzinfo = some TZNAME := by
    rw [WINDOW_START, subDays_tzinfo, hnow]
  simp only [add_event]
  rw [pyLt_aware st (WINDOW_START now) _ _ hst hws, decide_eq_true hlo]

/-- The filter in `add_event` drops a start strictly after the window end. -/
theorem add_event_skips_late
    (now st : PyDateTime) (seed : Nat) (cal : List ICalEvent) (s : String)
    (endv : Option PyDateTime) (loc desc : Option String)
    (hnow : now.tzinfo = some TZNAME) (hst : st.tzinfo = some TZNAME)
    (hlo : ¬ dtLtP st (WINDOW_START now)) (hhi : dtLtP WINDOW_END st) :
    add_event now seed cal s (.dt st) endv loc desc = .ok cal := by
  have hws : (WINDOW_START now).tzinfo = some TZNAME := by
    rw [WINDOW_START, subDays_tzinfo, hnow]
  simp only [add_event]
  rw [pyLt_aware st (WINDOW_START now) _ _ hst hws,
      pyLt_aware WINDOW_END st _ _ rfl hst,
      decide_eq_false hlo, decide_eq_true hhi]

/-- Running the `seen`-set loop again on its own output changes nothing. -/
theorem dedupeAux_fix : ∀ {l : List Item} {seen : List Key} {out : List Item},
    dedupeAux seen l = .ok out → dedupeAux seen out = .ok out := by
  intro l
  induction l with
  | nil =>
    intro seen out h
    simp only [dedupeAux] at h
    cases h
    simp [dedupeAux]
  | cons it rest ih =>
    intro seen out h
    simp only [dedupeAux] at h
    cases hkeq : keyOf it with
    | error e => rw [hkeq] at h; exact Except.noConfusion h
    | ok k =>
      simp only [hkeq] at h
      by_cases hs : k ∈ seen
      · rw [if_pos hs] at h
        exact ih h
      · rw [if_neg hs] at h
        cases hrec : dedupeAux (k :: seen) rest with
        | error e => rw [hrec] at h; exact Except.noConfusion h
        | ok out2 =>
          rw [hrec] at h
          cases h
          simp only [dedupeAux, hkeq]
          rw [if_neg hs, ih hrec]

/-- The first record carrying a key not yet seen (and not carried by any
earlier record) survives the `seen`-set loop. -/
theorem dedupeAux_first_mem :
    ∀ {l1 : List Item} {seen : List Key} {out rest : List Item} {c1 : Item} {k : Key},
    keyOf c1 = .ok k → k ∉ seen →
    (∀ x ∈ l1, ∀ k2, keyOf x = .ok k2 → k2 ≠ k) →
    dedupeAux seen (l1 ++ c1 :: rest) = .ok out → c1 ∈ out := by
  intro l1
  induction l1 with
  | nil =>
    intro seen out rest c1 k hk hns _ h
    simp only [List.nil_append, dedupeAux, hk] at h
    rw [if_neg hns] at h
    cases hrec : dedupeAux (k :: seen) rest with
    | error e => rw [hrec] at h; exact Except.noConfusion h
    | ok out2 =>
      rw [hrec] at h
      cases h
      exact List.mem_cons_self _ _
  | cons x l1' ih =>
    intro seen out rest c1 k hk hns hfirst h
    simp only [List.cons_append, dedupeAux] at h
    cases hkx : keyOf x with
    | error e => rw [hkx] at h; exact Except.noConfusion h
    | ok kx =>
      simp only [hkx, List.append_eq] at h
      have hkxne : kx ≠ k := hfirst x (List.mem_cons_self _ _) kx hkx
      by_cases hs : kx ∈ seen
      · rw [if_pos hs] at h
        exact ih hk hns (fun y hy => hfirst y (List.mem_cons_of_mem _ hy)) h
      · rw [if_neg hs] at h
        cases hrec : dedupeAux (kx :: seen) (l1' ++ c1 :: rest) with
        | error e => rw [hrec] at h; exact Except.noConfusion h
        | ok out2 =>
          rw [hrec] at h
          cases h
          have hns2 : k ∉ kx :: seen := by
            intro hmem
            rcases List.mem_cons.mp hmem with h1 | h2
            · exact hkxne h1.symm
            · exact hns h2
          exact List.mem_cons_of_mem _
            (ih hk hns2 (fun y hy => hfirst y (List.mem_cons_of_mem _ hy)) hrec)

/-- The output of the `seen`-set loop carries each key at most once, and
never a key that was already in `seen`. -/
theorem dedupeAux_key_count :
    ∀ {l : List Item} {seen : List Key} {out : List Item} (k : Key),
    dedupeAux seen l = .ok out →
    (out.filter (hasKey k)).length ≤ 1 ∧
      (k ∈ seen → (out.filter (hasKey k)).length = 0) := by
  intro l
  induction l with
  | nil =>
    intro seen out k h
    simp only [dedupeAux] at h
    cases h
    simp
  | cons it rest ih =>
    intro seen out k h
    simp only [dedupeAux] at h
    cases hkeq : keyOf it with
    | error e => rw [hkeq] at h; exact Except.noConfusion h
    | ok k0 =>
      simp only [hkeq] at h
      by_cases hs : k0 ∈ seen
      · rw [if_pos hs] at h
        exact ih k h
      · rw [if_neg hs] at h
        cases hrec : dedupeAux (k0 :: seen) rest with
        | error e => rw [hrec] at h; exact Except.noConfusion h
        | ok out2 =>
          rw [hrec] at h
          cases h
          by_cases hkk : k0 = k
          · subst hkk
            have hmemk : k0 ∈ k0 :: seen := List.mem_cons_self _ _
            have h0 := (ih k0 hrec).2 hmemk
            have hkit : hasKey k0 it = true := by
              simp [hasKey, hkeq]
            constructor
            · simp [List.filter, hkit, h0]
            · intro hcon; exact absurd hcon hs
          · have hkit : hasKey k it = false := by
              simp only [hasKey, hkeq]
              exact decide_eq_false hkk
            have hih := @ih (k0 :: seen) out2 k hrec
            constructor
            · simpa [List.filter, hkit] using hih.1
            · intro hmem
              have : k ∈ k0 :: seen := List.mem_cons_of_mem _ hmem
              simpa [List.filter, hkit] using hih.2 this

/-- A list housing two distinct members has length at least two. -/
theorem two_distinct_mem_length {α : Type} {l : List α} {a b : α}
    (ha : a ∈ l) (hb : b ∈ l) (hne : a ≠ b) : 2 ≤ l.length := by
  match l with
  | [] => cases ha
  | [x] =>
    rw [List.mem_singleton] at ha hb
    exact absurd (ha.trans hb.symm) hne
  | x :: y :: t => simp [List.length]

/-- Appending under a category outside the six fixed keys leaves `by_cat`
unchanged (the fresh default list of `dict.get` is discarded). -/
theorem appendCat_unknown (b : CatLists) (c : String) (it : Item)
    (hc : sixContains c = false) : appendCat b (some c) it = b := by
  have h1 : c ≠ "sports" := by rintro rfl; exact absurd hc (by decide)
  have h2 : c ≠ "music" := by rintro rfl; exact absurd hc (by decide)
  have h3 : c ≠ "conferences" := by rintro rfl; exact absurd hc (by decide)
  have h4 : c ≠ "arts" := by rintro rfl; exact absurd hc (by decide)
  have h5 : c ≠ "festivals" := by rintro rfl; exact absurd hc (by decide)
  have h6 : c ≠ "specials" := by rintro rfl; exact absurd hc (by decide)
  simp [appendCat, h1, h2, h3, h4, h5, h6]

/-- Normalizing and appending an item list under an unknown (or missing)
category succeeds and leaves `by_cat` unchanged. -/
theorem appendAll_unknown_cat :
    ∀ {items : List Item} {b : CatLists} {cat : Option String},
    (match cat with | some c => sixContains c = false | none => True) →
    (∀ x ∈ items, ∃ y, normalizeItem x = .ok y) →
    appendAll b cat items = .ok b := by
  intro items
  induction items with
  | nil => intro b cat _ _; rfl
  | cons it its ih =>
    intro b cat hcat hnorm
    obtain ⟨y, hy⟩ := hnorm it (List.mem_cons_self _ _)
    simp only [appendAll, hy]
    have hcatEq : appendCat b cat y = b := by
      cases cat with
      | none => rfl
      | some c => exact appendCat_unknown b c y hcat
    rw [hcatEq]
    exact ih hcat (fun x hx => hnorm x (List.mem_cons_of_mem _ hx))

/-- A `parse_dt` failure on any item aborts the normalize-and-append loop
(there is no per-item catch). -/
theorem appendAll_error :
    ∀ {pre : List Item} {b : CatLists} {cat : Option String} {bad : Item}
      {post : List Item} {e : String},
    (∀ x ∈ pre, ∃ y, normalizeItem x = .ok y) →
    normalizeItem bad = .error e →
    appendAll b cat (pre ++ bad :: post) = .error e := by
  intro pre
  induction pre with
  | nil =>
    intro b cat bad post e _ hbad
    simp only [List.nil_append, appendAll, hbad]
  | cons x pre' ih =>
    intro b cat bad post e hpre hbad
    obtain ⟨y, hy⟩ := hpre x (List.mem_cons_self _ _)
    simp only [List.cons_append, appendAll, hy, List.append_eq]
    exact ih (fun z hz => hpre z (List.mem_cons_of_mem _ hz)) hbad

/-- A sample run clock: 2026-06-01 12:00 in the configured zone. -/
def now0 : PyDateTime := ⟨2026, 6, 1, 12, 0, 0, some TZNAME⟩

/-- A sample in-window aware start instant. -/
def dtShow : PyDateTime := ⟨2026, 6, 5, 19, 0, 0, some TZNAME⟩

/-- C1: the claim reads that the uid is a deterministic, run-independent
function of `(summary, start, end, location)`.  The code instead feeds that
tuple to Python's built-in `hash`, whose string hashing is salted by the
per-run `PYTHONHASHSEED`: the very same event tuple yields different uids
under two different run salts, so the uid is NOT run-independent. -/
theorem uid_depends_on_hash_seed :
    uidOf 0 "Concert" dtShow none (some "AAC") ≠
    uidOf 1 "Concert" dtShow none (some "AAC") := by
  set_option maxRecDepth 8192 in decide

/-- C5 (amended): when loading the configuration raises (missing or invalid
`data/events.yaml`), `main` propagates the exception and the run aborts —
there is no empty-configuration substitution and no feeds are produced. -/
theorem main_propagates_config_error (now : PyDateTime) (seed : Nat)
    (e : String) : mainModel now seed (.error e) = .error e := rfl

/-- C5 counterexample: on a missing configuration file the run aborts with
the loader's error instead of completing with empty feeds as claimed. -/
theorem main_config_error_aborts_run :
    mainModel now0 0 (.error "FileNotFoundError: data/events.yaml") =
      .error "FileNotFoundError: data/events.yaml" := rfl

/-- C9: the Deduplicator is idempotent — applying `dedupe` to the output of
`dedupe` returns that output unchanged. -/
theorem dedupe_idempotent (l out : List Item) (h : dedupe l = .ok out) :
    dedupe out = .ok out := dedupeAux_fix h

/-- First record of a duplicate pair (same summary, start and location,
different description), used by the idempotence witness. -/
def itemP1 : Item :=
  ⟨"Play", .dt ⟨2026, 6, 10, 20, 0, 0, some TZNAME⟩, none, some "Winspear", some "first-listing"⟩

/-- Second record of the duplicate pair. -/
def itemP2 : Item :=
  ⟨"Play", .dt ⟨2026, 6, 10, 20, 0, 0, some TZNAME⟩, none, some "Winspear", some "second-listing"⟩

/-- An unrelated record between the duplicates. -/
def itemQ : Item :=
  ⟨"Gig", .dt ⟨2026, 6, 11, 20, 0, 0, some TZNAME⟩, none, some "House of Blues", none⟩

/-- Witness for C9 at a concrete list holding one duplicate pair. -/
theorem dedupe_idempotent_witness :
    dedupe [itemP1, itemQ, itemP2] = .ok [itemP1, itemQ] ∧
    dedupe [itemP1, itemQ] = .ok [itemP1, itemQ] :=
  ⟨rfl, dedupe_idempotent [itemP1, itemQ, itemP2] [itemP1, itemQ] rfl⟩

/-- C8: among candidates of one category carrying the same
`(summary, normalized start, location)` key but different descriptions,
exactly the first in iteration order survives deduplication (`main` feeds
`dedupe` the sources-then-curated list, in list order). -/
theorem dedupe_keeps_first_occurrence
    (l1 l2 l3 : List Item) (c1 c2 : Item) (k : Key) (out : List Item)
    (h1 : keyOf c1 = .ok k) (h2 : keyOf c2 = .ok k)
    (hd : c1.description ≠ c2.description)
    (hfirst : ∀ x ∈ l1, ∀ k2, keyOf x = .ok k2 → k2 ≠ k)
    (h : dedupe (l1 ++ c1 :: (l2 ++ c2 :: l3)) = .ok out) :
    c1 ∈ out ∧ c2 ∉ out := by
  have hc1 : c1 ∈ out := dedupeAux_first_mem h1 (by simp) hfirst h
  refine ⟨hc1, ?_⟩
  intro hc2
  have hne : c1 ≠ c2 := fun he => hd (congrArg Item.description he)
  have hk1 : hasKey k c1 = true := by simp [hasKey, h1]
  have hk2 : hasKey k c2 = true := by simp [hasKey, h2]
  have hm1 : c1 ∈ out.filter (hasKey k) := List.mem_filter.mpr ⟨hc1, hk1⟩
  have hm2 : c2 ∈ out.filter (hasKey k) := List.mem_filter.mpr ⟨hc2, hk2⟩
  have hlen := (dedupeAux_key_count k h).1
  have htwo := two_distinct_mem_length hm1 hm2 hne
  omega

/-- First record of the duplicate pair used by the C8 witness. -/
def itemR1 : Item :=
  ⟨"Derby", .dt ⟨2026, 6, 12, 15, 0, 0, some TZNAME⟩, none, some "Cotton Bowl", some "from feed"⟩

/-- Later record with the same key but another description. -/
def itemR2 : Item :=
  ⟨"Derby", .dt ⟨2026, 6, 12, 15, 0, 0, some TZNAME⟩, none, some "Cotton Bowl", some "curated copy"⟩

/-- An unrelated record sitting between the two duplicates. -/
def itemS : Item :=
  ⟨"Recital", .dt ⟨2026, 6, 13, 18, 30, 0, some TZNAME⟩, none, none, none⟩

/-- Witness for C8: of the two records with an identical key, the first
survives and the second does not. -/
theorem dedupe_keeps_first_occurrence_witness :
    itemR1 ∈ [itemR1, itemS] ∧ itemR2 ∉ [itemR1, itemS] :=
  dedupe_keeps_first_occurrence [] [itemS] [] itemR1 itemR2
    ("Derby", ⟨2026, 6, 12, 15, 0, 0, some TZNAME⟩, "Cotton Bowl") [itemR1, itemS]
    rfl rfl (by decide) (by intro x hx; exact absurd hx (List.not_mem_nil x)) rfl

/-- C2: the claim reads that a candidate with a malformed date string is
dropped alone and the run continues.  In the code `parse_dt` raises
(`datetime.fromisoformat`) and the normalization loop in
`fetch_from_sources` sits outside the per-source try/except, so the
exception propagates: the whole run aborts as soon as one candidate's start
string fails to parse, even when every earlier candidate was fine. -/
theorem fetch_aborts_on_malformed_date
    (t : String) (cat : Option String) (url : String)
    (pre post : List Item) (bad : Item) (rest : List Source) (e : String)
    (ht : recognizedB t = true)
    (hpre : ∀ x ∈ pre, ∃ y, normalizeItem x = .ok y)
    (hbad : normalizeItem bad = .error e) :
    fetchFromSources
      (({ stype := some t, category := cat, url := url,
          result := .ok (pre ++ bad :: post) } : Source) :: rest) = .error e := by
  simp only [fetchFromSources, fetchAux, routeSource, ht, if_true]
  rw [appendAll_error hpre hbad]

/-- A candidate whose start string parses, for the C2 witness. -/
def goodItem : Item := ⟨"Good Event", .str "2026-06-07", none, none, none⟩

/-- The malformed candidate of the C2 witness (the spec's own example
string). -/
def badItem : Item := ⟨"Bad Event", .str "not-a-date", none, none, none⟩

/-- Witness for C2: with one well-formed candidate followed by the
`"not-a-date"` candidate, the whole fetch aborts with the parse error. -/
theorem fetch_aborts_on_malformed_date_witness :
    fetchFromSources
      [⟨some "ics", some "music", "https://example.com/cal.ics",
        .ok [goodItem, badItem]⟩] = .error "ValueError: Invalid isoformat string" :=
  fetch_aborts_on_malformed_date "ics" (some "music") "https://example.com/cal.ics"
    [goodItem] [] badItem [] "ValueError: Invalid isoformat string" rfl
    (by intro x hx; rw [List.mem_singleton] at hx; subst hx; exact ⟨_, rfl⟩) rfl

/-- C4 (amended): the Window Filter drops a start strictly before
`now − 7 days` and strictly after the horizon, and keeps BOTH boundaries:
a start equal to the lower boundary is included (the code tests
`start < WINDOW_START`, not `≤`), and a start equal to the horizon is
included. -/
theorem window_filter_boundaries
    (now st : PyDateTime) (seed : Nat) (cal : List ICalEvent) (s : String)
    (endv : Option PyDateTime) (loc desc : Option String)
    (hnow : now.tzinfo = some TZNAME) (hst : st.tzinfo = some TZNAME) :
    (st = WINDOW_START now → ¬ dtLtP WINDOW_END st →
      ∃ ev, add_event now seed cal s (.dt st) endv loc desc = .ok (cal ++ [ev])) ∧
    (dtLtP st (WINDOW_START now) →
      add_event now seed cal s (.dt st) endv loc desc = .ok cal) ∧
    (st = WINDOW_END → ¬ dtLtP st (WINDOW_START now) →
      ∃ ev, add_event now seed cal s (.dt st) endv loc desc = .ok (cal ++ [ev])) ∧
    (dtLtP WINDOW_END st →
      add_event now seed cal s (.dt st) endv loc desc = .ok cal) := by
  refine ⟨?_, ?_, ?_, ?_⟩
  · intro heq hhi
    exact ⟨_, add_event_in_window now st seed cal s endv loc desc hnow hst
      (by rw [heq]; exact dtLtP_irrefl _) hhi⟩
  · intro hlo
    exact add_event_skips_early now st seed cal s endv loc desc hnow hst hlo
  · intro heq hlo
    exact ⟨_, add_event_in_window now st seed cal s endv loc desc hnow hst hlo
      (by rw [heq]; exact dtLtP_irrefl _)⟩
  · intro hhi
    by_cases hlo : dtLtP st (WINDOW_START now)
    · exact add_event_skips_early now st seed cal s endv loc desc hnow hst hlo
    · exact add_event_skips_late now st seed cal s endv loc desc hnow hst hlo hhi

/-- C4 counterexample: a start exactly at the lower window boundary
(`now − 7 days`) is INCLUDED by the code — one event is emitted — whereas
the claim says the lower bound is strict and such a start is excluded. -/
theorem lower_boundary_start_included :
    (add_event now0 0 [] "Boundary Event" (.dt (WINDOW_START now0)) none none none).map
      List.length = .ok 1 := rfl

/-- Witness for C4 at the lower boundary of the sample clock `now0`. -/
theorem window_filter_boundaries_witness :
    ∃ ev, add_event now0 0 [] "Boundary Case" (.dt (WINDOW_START now0)) none none none =
      .ok ([] ++ [ev]) :=
  (window_filter_boundaries now0 (WINDOW_START now0) 0 [] "Boundary Case"
    none none none rfl rfl).1 rfl (by decide)

/-- C7 (amended): a source whose declared kind matches no extractor
contributes zero records and the run simply continues with the remaining
sources — but silently: the `else` branch only sets `items = []`, so no
warning is emitted (warnings exist only for recognized extractors that
raise). -/
theorem unrecognized_kind_zero_records
    (src : Source) (rest : List Source)
    (h : match src.stype with | some t => recognizedB t = false | none => True) :
    fetchFromSources (src :: rest) = fetchFromSources rest := by
  rcases src with ⟨stype, cat, url, res⟩
  cases stype with
  | none => simp [fetchFromSources, fetchAux, routeSource, appendAll]
  | some t =>
    have h2 : recognizedB t = false := h
    simp [fetchFromSources, fetchAux, routeSource, h2, appendAll]

/-- C7 counterexample: a source of unrecognized kind `"rss"` yields zero
records AND an empty warning list — the claimed warning is never
emitted. -/
theorem unrecognized_kind_no_warning :
    fetchFromSources
      [⟨some "rss", some "music", "https://example.com/feed",
        .ok [⟨"Show", .dt dtShow, none, none, none⟩]⟩] =
      .ok (emptyCatLists, []) := rfl

/-- Witness for C7: an unrecognized-kind source followed by a real source
leaves the result exactly as if the bad source were absent. -/
theorem unrecognized_kind_zero_records_witness :
    fetchFromSources
      [⟨some "rss2", some "arts", "https://example.com/a", .ok [itemS]⟩,
       ⟨some "ics", some "arts", "https://example.com/b", .ok [itemS]⟩] =
      fetchFromSources [⟨some "ics", some "arts", "https://example.com/b", .ok [itemS]⟩] :=
  unrecognized_kind_zero_records
    ⟨some "rss2", some "arts", "https://example.com/a", .ok [itemS]⟩
    [⟨some "ics", some "arts", "https://example.com/b", .ok [itemS]⟩] rfl

/-- C3 (amended): a bare-date candidate (no `T` in the string) normalizes
to local midnight of that date — but the code has no all-day handling at
all: no `allDay` flag exists, and with no explicit end the emitted event's
end is start + 2 hours (the single timed-event default), not midnight of
the following day. -/
theorem bare_date_candidate_normalization
    (s : String) (dt now : PyDateTime) (seed : Nat) (cal : List ICalEvent)
    (summary : String) (loc desc : Option String)
    (hT : s.data.contains 'T' = false)
    (hp : parse_dt s = .ok dt)
    (hnow : now.tzinfo = some TZNAME)
    (hlo : ¬ dtLtP dt (WINDOW_START now))
    (hhi : ¬ dtLtP WINDOW_END dt) :
    dt.hour = 0 ∧ dt.minute = 0 ∧ dt.second = 0 ∧ dt.tzinfo = some TZNAME ∧
    add_event now seed cal summary (.dt dt) none loc desc =
      .ok (cal ++ [⟨summary, dt, addHours2 dt, truthyStr loc, truthyStr desc,
                    uidOf seed summary dt none loc⟩]) := by
  rw [parse_dt, hT] at hp
  simp only [Bool.false_eq_true, if_false] at hp
  cases hf : fromisoformat s with
  | error e =>
    rw [hf] at hp
    exact Except.noConfusion hp
  | ok d0 =>
    rw [hf] at hp
    simp only [Except.map, Except.ok.injEq] at hp
    have hnaive : d0.tzinfo = none := fromisoformat_naive hf
    rw [hnaive] at hp
    simp only [to_local] at hp
    subst hp
    refine ⟨rfl, rfl, rfl, rfl, ?_⟩
    exact add_event_in_window now _ seed cal summary none loc desc hnow rfl hlo hhi

/-- C3 counterexample: the bare-date candidate `"2026-06-05"` with no
explicit end is emitted with end 02:00 of the SAME day (start + 2 hours),
not midnight of the following day as claimed (and the assembled event has
no all-day marking at all). -/
theorem bare_date_end_not_next_midnight :
    parse_dt "2026-06-05" = .ok ⟨2026, 6, 5, 0, 0, 0, some TZNAME⟩ ∧
    (add_event now0 0 [] "Fair" (.dt ⟨2026, 6, 5, 0, 0, 0, some TZNAME⟩)
        none none none).map (fun c => c.map ICalEvent.dtend) =
      .ok [⟨2026, 6, 5, 2, 0, 0, some TZNAME⟩] ∧
    (⟨2026, 6, 5, 2, 0, 0, some TZNAME⟩ : PyDateTime) ≠
      ⟨2026, 6, 6, 0, 0, 0, some TZNAME⟩ :=
  ⟨rfl, rfl, by decide⟩

/-- Witness for C3 at the spec's own example date `"2026-06-05"`. -/
theorem bare_date_candidate_normalization_witness :
    (⟨2026, 6, 5, 0, 0, 0, some TZNAME⟩ : PyDateTime).hour = 0 ∧
    (⟨2026, 6, 5, 0, 0, 0, some TZNAME⟩ : PyDateTime).minute = 0 ∧
    (⟨2026, 6, 5, 0, 0, 0, some TZNAME⟩ : PyDateTime).second = 0 ∧
    (⟨2026, 6, 5, 0, 0, 0, some TZNAME⟩ : PyDateTime).tzinfo = some TZNAME ∧
    add_event now0 0 [] "Fair" (.dt ⟨2026, 6, 5, 0, 0, 0, some TZNAME⟩)
        none none none =
      .ok ([] ++ [⟨"Fair", ⟨2026, 6, 5, 0, 0, 0, some TZNAME⟩,
        addHours2 ⟨2026, 6, 5, 0, 0, 0, some TZNAME⟩, truthyStr none,
        truthyStr none,
        uidOf 0 "Fair" ⟨2026, 6, 5, 0, 0, 0, some TZNAME⟩ none none⟩]) :=
  bare_date_candidate_normalization "2026-06-05" _ now0 0 [] "Fair" none none
    rfl rfl rfl (by decide) (by decide)

/-- C6 (amended): every event `add_event` emits carries a timezone-aware
start (a naive start would make the window comparison raise before any
emission), and when the candidate supplied no explicit end the end defaults
to start + 2 hours, which is never before the start.  An explicit end,
however, is stored without any check against the start. -/
theorem emitted_event_aware_start_and_default_end
    (now : PyDateTime) (seed : Nat) (cal cal2 : List ICalEvent) (s : String)
    (start : StartVal) (endv : Option PyDateTime) (loc desc : Option String)
    (ev : ICalEvent)
    (hnow : now.tzinfo = some TZNAME)
    (h : add_event now seed cal s start endv loc desc = .ok cal2)
    (hev : ev ∈ cal2) (hnew : ev ∉ cal) :
    ev.dtstart.tzinfo.isSome = true ∧
    (endv = none → ev.dtend = addHours2 ev.dtstart ∧
      ¬ dtLtP ev.dtend ev.dtstart) := by
  have hws : (WINDOW_START now).tzinfo = some TZNAME := by
    rw [WINDOW_START, subDays_tzinfo, hnow]
  cases start with
  | noneV =>
    simp only [add_event] at h
    cases h
    exact absurd hev hnew
  | str s2 =>
    simp only [add_event] at h
    exact Except.noConfusion h
  | dt st =>
    simp only [add_event] at h
    cases hstz : st.tzinfo with
    | none =>
      have hcmp : pyLt st (WINDOW_START now) =
          .error "TypeError: cannot compare offset-naive and offset-aware datetimes" := by
        unfold pyLt; rw [hstz, hws]
      rw [hcmp] at h
      exact Except.noConfusion h
    | some z =>
      rw [pyLt_aware st (WINDOW_START now) _ _ hstz hws] at h
      cases hd1 : decide (dtLtP st (WINDOW_START now)) with
      | true =>
        rw [hd1] at h
        cases h
        exact absurd hev hnew
      | false =>
        rw [hd1] at h
        rw [pyLt_aware WINDOW_END st _ _ rfl hstz] at h
        cases hd2 : decide (dtLtP WINDOW_END st) with
        | true =>
          rw [hd2] at h
          cases h
          exact absurd hev hnew
        | false =>
          rw [hd2] at h
          cases h
          rcases List.mem_append.mp hev with hin | hin
          · exact absurd hin hnew
          · rw [List.mem_singleton] at hin
            subst hin
            refine ⟨by simp [hstz], ?_⟩
            intro hend
            subst hend
            exact ⟨rfl, not_dtLtP_addHours2 st⟩

/-- C6 counterexample: a candidate with an explicit end two hours BEFORE
its start is emitted exactly as supplied — the emitted event has
end < start, refuting the claimed invariant for source-supplied ends. -/
theorem explicit_end_before_start_emitted :
    (add_event now0 0 [] "Game" (.dt ⟨2026, 6, 5, 19, 0, 0, some TZNAME⟩)
        (some ⟨2026, 6, 5, 17, 0, 0, some TZNAME⟩) none none).map
      (fun c => c.map (fun ev => (ev.dtstart, ev.dtend))) =
      .ok [(⟨2026, 6, 5, 19, 0, 0, some TZNAME⟩,
            ⟨2026, 6, 5, 17, 0, 0, some TZNAME⟩)] ∧
    dtLtP ⟨2026, 6, 5, 17, 0, 0, some TZNAME⟩
      ⟨2026, 6, 5, 19, 0, 0, some TZNAME⟩ :=
  ⟨rfl, by decide⟩

/-- The start of the C6 witness event. -/
def dtW : PyDateTime := ⟨2026, 6, 8, 19, 0, 0, some TZNAME⟩

/-- The event `add_event` emits for the C6 witness candidate. -/
def evW : ICalEvent :=
  ⟨"Window Show", dtW, addHours2 dtW, none, none,
   uidOf 0 "Window Show" dtW none none⟩

/-- Witness for C6 on a concrete emitted event. -/
theorem emitted_event_aware_start_witness :
    evW.dtstart.tzinfo.isSome = true ∧
    ((none : Option PyDateTime) = none → evW.dtend = addHours2 evW.dtstart ∧
      ¬ dtLtP evW.dtend evW.dtstart) :=
  emitted_event_aware_start_and_default_end now0 0 [] [evW] "Window Show"
    (.dt dtW) none none none evW rfl rfl (by decide) (by decide)

/-- C10: a source whose configured category is outside the six fixed keys
has every extracted record appended into the discarded `dict.get` default
list: the records land in no category and no warning is emitted — the run
result is exactly as if the source were absent. -/
theorem invalid_category_discards_silently
    (t : String) (cat : Option String) (url : String) (items : List Item)
    (rest : List Source)
    (ht : recognizedB t = true)
    (hnorm : ∀ x ∈ items, ∃ y, normalizeItem x = .ok y)
    (hcat : match cat with | some c => sixContains c = false | none => True) :
    fetchFromSources
      (({ stype := some t, category := cat, url := url,
          result := .ok items } : Source) :: rest) = fetchFromSources rest := by
  simp only [fetchFromSources, fetchAux, routeSource, ht, if_true]
  rw [appendAll_unknown_cat hcat hnorm]

/-- Witness for C10: one `"comedy"`-category source contributes nothing —
no records anywhere, no warning. -/
theorem invalid_category_discards_silently_witness :
    fetchFromSources
      [⟨some "ics", some "comedy", "https://example.com/comedy.ics",
        .ok [⟨"Open Mic", .dt ⟨2026, 6, 9, 20, 0, 0, some TZNAME⟩,
              none, none, none⟩]⟩] = fetchFromSources [] :=
  invalid_category_discards_silently "ics" (some "comedy")
    "https://example.com/comedy.ics"
    [⟨"Open Mic", .dt ⟨2026, 6, 9, 20, 0, 0, some TZNAME⟩, none, none, none⟩]
    [] rfl
    (by intro x hx; rw [List.mem_singleton] at hx; subst hx; exact ⟨_, rfl⟩)
    rfl
